import Mathlib

/-!
Shallow embedding of `src/int_code/machine.rs` (an Intcode virtual machine)
and proofs about its decode and execute behaviour.

Modelling conventions:
* `i32` values become `Int`; `Vec<i32>` becomes `List Int`.
* A Rust panic (vector index out of range, slice index out of range, the
  explicit panics in `_create_addressing_mode` and `_write_memory`) aborts the
  process; the embedding surfaces it as `Except.error` carrying a `PanicKind`,
  which `runMachine` turns into the terminal `RunResult.panicked`.
* `usize` casts of possibly negative `i32` values (`value as usize`) wrap to
  addresses far beyond any actual vector, so every subsequent access panics;
  the embedding keeps the signed value and treats a negative index as out of
  bounds, which is observation-equivalent.
* The `StdIo` trait object is modelled as a deterministic port `IoState`: a
  stream of input values (`inputs`), how many were consumed (`nread`), and the
  outputs written so far in order (`outputs`).
* The unbounded `while` loop of `_run_machine` is given explicit fuel; a run
  that needs more iterations than the fuel ends in `RunResult.outOfFuel`.
-/

namespace IntCode

/-- Rust `static INSTRUCTION_LENGTH: usize = 5`. -/
def INSTRUCTION_LENGTH : Nat := 5

/-- The aborts the Rust code can perform. -/
inductive PanicKind
  | UnrecognisedMode (mode : Nat)
  | IndexOutOfBounds
  | WriteToImmediate
  deriving DecidableEq

/-- Sequencing that mirrors how a Rust panic propagates: once an abort
happened nothing further runs. -/
def andThen {α β : Type} (x : Except PanicKind α) (f : α → Except PanicKind β) :
    Except PanicKind β :=
  match x with
  | .error p => .error p
  | .ok a => f a

/-- Rust `enum AddressingMode`. `Register` holds the `value as usize` cast
result, kept signed (see module comment). -/
inductive AddressingMode
  | Register (pos : Int)
  | Immediate (value : Int)
  deriving DecidableEq

/-- Rust `enum Command`. -/
inductive Command
  | End
  | Add (a b dest : AddressingMode)
  | Multiply (a b dest : AddressingMode)
  | JmpIfTrue (t p : AddressingMode)
  | JmpIfFalse (t p : AddressingMode)
  | LessThan (a b dest : AddressingMode)
  | Equal (a b dest : AddressingMode)
  | IoRead (pos : Int)
  | IoWrite (pos : Int)
  deriving DecidableEq

/-- A deterministic `StdIo` implementation: a stream of inputs, a count of
inputs consumed so far, and the outputs delivered so far in order. -/
structure IoState where
  inputs : Nat → Int
  nread : Nat
  outputs : List Int

/-- `StdIo::read`: return the next input value. -/
def ioRead (io : IoState) : Int × IoState :=
  (io.inputs io.nread, { io with nread := io.nread + 1 })

/-- `StdIo::write`: record one output value. -/
def ioWrite (io : IoState) (value : Int) : IoState :=
  { io with outputs := io.outputs ++ [value] }

/-- Decimal digits of a nonnegative number, most significant first, by
repeated division exactly as `i32::to_string` renders them.  Fuel `n + 1`
always suffices since a number has at most `n + 1` digits. -/
def decDigitsAux : Nat → Nat → List Nat → List Nat
  | 0, _, acc => acc
  | f + 1, n, acc => if n < 10 then n :: acc else decDigitsAux f (n / 10) (n % 10 :: acc)

/-- Digit string of `n`, most significant first (`"0"` for zero). -/
def decDigits (n : Nat) : List Nat := decDigitsAux (n + 1) n []

/-- Left-pad the digit string with zeros to at least `INSTRUCTION_LENGTH`
characters, as `_generate_operation_vec` does. -/
def padDigits (ds : List Nat) : List Nat :=
  List.replicate (INSTRUCTION_LENGTH - ds.length) 0 ++ ds

/-- Rust `_generate_operation_vec`: render the instruction word as decimal
text, left-pad to five characters, peel the first three characters off as the
mode digits of operands 3, 2, 1, and parse the rest as the opcode.

For a negative word the rendered text contains a `-`: when the magnitude is a
single digit the padding is `"000-d"`, the three peeled characters are zeros
and the remainder parses to the negative opcode; for any larger magnitude one
of the three peeled characters is the `-` sign, `to_digit` fails, and the
function returns `none`. -/
def generateOperationVec (instruction : Int) : Option (Int × Nat × Nat × Nat) :=
  match instruction with
  | Int.ofNat n =>
    match padDigits (decDigits n) with
    | m3 :: m2 :: m1 :: rest =>
      some (((Nat.ofDigits 10 rest.reverse : Nat) : Int), m1, m2, m3)
    | _ => none
  | Int.negSucc k =>
    if k + 1 < 10 then some (Int.negSucc k, 0, 0, 0) else none

/-- Rust `_create_addressing_mode`: mode digit 1 is immediate, 0 is a
register (position); anything else panics `unrecognised memory mode`. -/
def createAddressingMode (mode : Nat) (value : Int) : Except PanicKind AddressingMode :=
  match mode with
  | 1 => .ok (.Immediate value)
  | 0 => .ok (.Register value)
  | _ => .error (.UnrecognisedMode mode)

/-- Rust slice indexing `slice[i]`: panics when the index is out of range. -/
def sliceGet (slice : List Int) (i : Nat) : Except PanicKind Int :=
  match slice[i]? with
  | some v => .ok v
  | none => .error .IndexOutOfBounds

/-- Rust `_parse_slice`: decode `slice[0]`, then build the command for the
opcode, reading the operand cells and applying the decoded modes in order.
Opcodes 3 and 4 take `slice[1]` as a raw address and ignore the mode digits.
An unknown opcode (or an undecodable word) yields `none`. -/
def parseSlice (slice : List Int) : Except PanicKind (Option (Command × Nat)) :=
  andThen (sliceGet slice 0) fun w =>
  match generateOperationVec w with
  | none => .ok none
  | some (opcode, m1, m2, m3) =>
    match opcode with
    | 1 =>
      andThen (sliceGet slice 1) fun s1 =>
      andThen (createAddressingMode m1 s1) fun a =>
      andThen (sliceGet slice 2) fun s2 =>
      andThen (createAddressingMode m2 s2) fun b =>
      andThen (sliceGet slice 3) fun s3 =>
      andThen (createAddressingMode m3 s3) fun c =>
      .ok (some (.Add a b c, 4))
    | 2 =>
      andThen (sliceGet slice 1) fun s1 =>
      andThen (createAddressingMode m1 s1) fun a =>
      andThen (sliceGet slice 2) fun s2 =>
      andThen (createAddressingMode m2 s2) fun b =>
      andThen (sliceGet slice 3) fun s3 =>
      andThen (createAddressingMode m3 s3) fun c =>
      .ok (some (.Multiply a b c, 4))
    | 3 =>
      andThen (sliceGet slice 1) fun s1 =>
      .ok (some (.IoRead s1, 2))
    | 4 =>
      andThen (sliceGet slice 1) fun s1 =>
      .ok (some (.IoWrite s1, 2))
    | 5 =>
      andThen (sliceGet slice 1) fun s1 =>
      andThen (createAddressingMode m1 s1) fun a =>
      andThen (sliceGet slice 2) fun s2 =>
      andThen (createAddressingMode m2 s2) fun b =>
      .ok (some (.JmpIfTrue a b, 3))
    | 6 =>
      andThen (sliceGet slice 1) fun s1 =>
      andThen (createAddressingMode m1 s1) fun a =>
      andThen (sliceGet slice 2) fun s2 =>
      andThen (createAddressingMode m2 s2) fun b =>
      .ok (some (.JmpIfFalse a b, 3))
    | 7 =>
      andThen (sliceGet slice 1) fun s1 =>
      andThen (createAddressingMode m1 s1) fun a =>
      andThen (sliceGet slice 2) fun s2 =>
      andThen (createAddressingMode m2 s2) fun b =>
      andThen (sliceGet slice 3) fun s3 =>
      andThen (createAddressingMode m3 s3) fun c =>
      .ok (some (.LessThan a b c, 4))
    | 8 =>
      andThen (sliceGet slice 1) fun s1 =>
      andThen (createAddressingMode m1 s1) fun a =>
      andThen (sliceGet slice 2) fun s2 =>
      andThen (createAddressingMode m2 s2) fun b =>
      andThen (sliceGet slice 3) fun s3 =>
      andThen (createAddressingMode m3 s3) fun c =>
      .ok (some (.Equal a b c, 4))
    | 99 => .ok (some (.End, 1))
    | _ => .ok none

/-- Rust vector read `self.state[pos]`: panics when out of range (a negative
signed index models the wrapped `usize` cast, also out of range). -/
def stateGet (state : List Int) (pos : Int) : Except PanicKind Int :=
  if 0 ≤ pos then
    match state[pos.toNat]? with
    | some v => .ok v
    | none => .error .IndexOutOfBounds
  else .error .IndexOutOfBounds

/-- Rust vector write `self.state[pos] = value`: panics when out of range. -/
def stateSet (state : List Int) (pos : Int) (value : Int) :
    Except PanicKind (List Int) :=
  if 0 ≤ pos ∧ pos.toNat < state.length then .ok (state.set pos.toNat value)
  else .error .IndexOutOfBounds

/-- Rust `_read_memory`. -/
def readMemory (state : List Int) : AddressingMode → Except PanicKind Int
  | .Immediate v => .ok v
  | .Register pos => stateGet state pos

/-- Rust `_write_memory`: writing through an immediate operand panics
`can not write value`. -/
def writeMemory (state : List Int) (m : AddressingMode) (value : Int) :
    Except PanicKind (List Int) :=
  match m with
  | .Immediate _ => .error .WriteToImmediate
  | .Register pos => stateSet state pos value

/-- Rust `_read_input`: pull one value from the io port, then store it at the
raw position (vector write, may panic). -/
def readInput (state : List Int) (io : IoState) (pos : Int) :
    Except PanicKind (List Int × IoState) :=
  andThen (stateSet state pos (ioRead io).1) fun st => .ok (st, (ioRead io).2)

/-- Rust `_two_arg_test`. -/
def twoArgTest (state : List Int) (m1 m2 : AddressingMode) (test : Int → Int → Bool) :
    Except PanicKind Bool :=
  andThen (readMemory state m1) fun a =>
  andThen (readMemory state m2) fun b =>
  .ok (test a b)

/-- Rust `_write_output`: `self.state.get(pos)` is the checked accessor; on
`None` the code logs to stderr and simply continues, delivering nothing. -/
def writeOutput (state : List Int) (io : IoState) (pos : Int) : IoState :=
  if 0 ≤ pos then
    match state[pos.toNat]? with
    | some v => ioWrite io v
    | none => io
  else io

/-- Result of one arm of the `while` body in `_run_machine`: either the early
`return self.state[0]` of `Command::End`, or the updated memory, program
counter and io port. -/
inductive StepOut
  | ret (value : Int) (state : List Int) (io : IoState)
  | next (state : List Int) (pc : Int) (io : IoState)

/-- One iteration of the `match` inside `_run_machine`'s loop, for an already
parsed command `cmd` of instruction length `clen`. -/
def execStep (state : List Int) (pc : Int) (io : IoState)
    (cmd : Command) (clen : Nat) : Except PanicKind StepOut :=
  match cmd with
  | .End =>
    andThen (stateGet state 0) fun v => .ok (.ret v state io)
  | .Add v1 v2 res =>
    andThen (readMemory state v1) fun a =>
    andThen (readMemory state v2) fun b =>
    andThen (writeMemory state res (a + b)) fun st =>
    .ok (.next st (pc + (clen : Int)) io)
  | .Multiply v1 v2 res =>
    andThen (readMemory state v1) fun a =>
    andThen (readMemory state v2) fun b =>
    andThen (writeMemory state res (a * b)) fun st =>
    .ok (.next st (pc + (clen : Int)) io)
  | .LessThan a1 a2 res =>
    andThen (twoArgTest state a1 a2 (fun u v => decide (u < v))) fun t =>
    andThen (writeMemory state res (if t then 1 else 0)) fun st =>
    .ok (.next st (pc + (clen : Int)) io)
  | .Equal a1 a2 res =>
    andThen (twoArgTest state a1 a2 (fun u v => decide (u = v))) fun t =>
    andThen (writeMemory state res (if t then 1 else 0)) fun st =>
    .ok (.next st (pc + (clen : Int)) io)
  | .IoRead pos =>
    andThen (readInput state io pos) fun r =>
    .ok (.next r.1 (pc + (clen : Int)) r.2)
  | .IoWrite pos =>
    .ok (.next state (pc + (clen : Int)) (writeOutput state io pos))
  | .JmpIfTrue tst ptr =>
    andThen (readMemory state tst) fun t =>
    if t ≠ 0 then
      andThen (readMemory state ptr) fun p => .ok (.next state p io)
    else .ok (.next state (pc + (clen : Int)) io)
  | .JmpIfFalse tst ptr =>
    andThen (readMemory state tst) fun t =>
    if t = 0 then
      andThen (readMemory state ptr) fun p => .ok (.next state p io)
    else .ok (.next state (pc + (clen : Int)) io)

/-- The clamped fetch `&self.state[pc .. min(pc+4, len)]` of line 182: the end
index is clamped to the length, but a start index beyond the length still
panics (and a negative `pc` models a wrapped `usize` jump target, likewise out
of range). -/
def fetchWindow (state : List Int) (pc : Int) : Except PanicKind (List Int) :=
  if 0 ≤ pc ∧ pc ≤ (state.length : Int) then .ok ((state.drop pc.toNat).take 4)
  else .error .IndexOutOfBounds

/-- The initial fetch `&self.state[pc .. pc+4]` of line 139 with `pc = 0`:
unclamped, so it panics whenever fewer than four cells exist. -/
def fetchFirst (state : List Int) : Except PanicKind (List Int) :=
  if 4 ≤ state.length then .ok (state.take 4)
  else .error .IndexOutOfBounds

/-- Outcome of `_run_machine`. `halted` is the early `return self.state[0]`
on `Command::End`; `stopped` is the silent `0` returned when `_parse_slice`
yields `None` and the `while` loop simply exits; `panicked` is a process
abort. -/
inductive RunResult
  | halted (ret : Int) (state : List Int) (io : IoState)
  | stopped (state : List Int) (io : IoState)
  | panicked (p : PanicKind)
  | outOfFuel

/-- The `while let Some(command) = parsed_command` loop of `_run_machine`,
with fuel bounding the number of executed commands. -/
def runLoop : Nat → List Int → Int → IoState → Option (Command × Nat) → RunResult
  | _, state, _, io, none => .stopped state io
  | 0, _, _, _, some _ => .outOfFuel
  | fuel + 1, state, pc, io, some (cmd, clen) =>
    match execStep state pc io cmd clen with
    | .error p => .panicked p
    | .ok (.ret v st io2) => .halted v st io2
    | .ok (.next st pc2 io2) =>
      match fetchWindow st pc2 with
      | .error p => .panicked p
      | .ok slice =>
        match parseSlice slice with
        | .error p => .panicked p
        | .ok parsed => runLoop fuel st pc2 io2 parsed

/-- Rust `_run_machine`: unclamped fetch and parse at `pc = 0`, then the
command loop. -/
def runMachine (state : List Int) (io : IoState) (fuel : Nat) : RunResult :=
  match fetchFirst state with
  | .error p => .panicked p
  | .ok slice =>
    match parseSlice slice with
    | .error p => .panicked p
    | .ok parsed => runLoop fuel state 0 io parsed

/-- What the caller of `execute` sees. `done ret state io`: a normal return
whose return value `ret : Unit` is all `execute` gives back (it calls
`_run_machine` and discards the `i32`); `state` is the machine's private
memory after the call and `io` the caller's io port mutated through the
borrowed reference. -/
inductive ExecuteResult
  | done (ret : Unit) (state : List Int) (io : IoState)
  | panicked (p : PanicKind)
  | outOfFuel

/-- Rust `pub fn execute(&mut self) { self._run_machine(); }`. -/
def execute (state : List Int) (io : IoState) (fuel : Nat) : ExecuteResult :=
  match runMachine state io fuel with
  | .halted _ st io2 => .done () st io2
  | .stopped st io2 => .done () st io2
  | .panicked p => .panicked p
  | .outOfFuel => .outOfFuel

/-- A concrete io port used by witnesses: constant zero inputs, nothing read,
nothing written yet. -/
def ioZero : IoState := ⟨fun _ => 0, 0, []⟩

@[simp] lemma andThen_ok {α β : Type} (a : α) (f : α → Except PanicKind β) :
    andThen (.ok a) f = f a := rfl

@[simp] lemma andThen_error {α β : Type} (p : PanicKind) (f : α → Except PanicKind β) :
    andThen (.error p) f = .error p := rfl

lemma decDigitsAux_of_lt (f n : Nat) (acc : List Nat) (hf : 0 < f) (h : n < 10) :
    decDigitsAux f n acc = n :: acc := by
  cases f with
  | zero => exact absurd hf (Nat.lt_irrefl 0)
  | succ f => simp [decDigitsAux, h]

lemma decDigitsAux_of_ge (f n : Nat) (acc : List Nat) (hf : 0 < f) (h : 10 ≤ n) :
    decDigitsAux f n acc = decDigitsAux (f - 1) (n / 10) (n % 10 :: acc) := by
  cases f with
  | zero => exact absurd hf (Nat.lt_irrefl 0)
  | succ f => simp [decDigitsAux, Nat.not_lt.2 h]

/-- The padded digit string of a number below 100000 is exactly its five
decimal digits, most significant first. -/
lemma padDigits_decDigits (n : Nat) (h : n < 100000) :
    padDigits (decDigits n) =
      [n / 10000 % 10, n / 1000 % 10, n / 100 % 10, n / 10 % 10, n % 10] := by
  have pad1 : ∀ a : Nat, padDigits [a] = [0, 0, 0, 0, a] := fun a => rfl
  have pad2 : ∀ a b : Nat, padDigits [a, b] = [0, 0, 0, a, b] := fun a b => rfl
  have pad3 : ∀ a b c : Nat, padDigits [a, b, c] = [0, 0, a, b, c] := fun a b c => rfl
  have pad4 : ∀ a b c d : Nat, padDigits [a, b, c, d] = [0, a, b, c, d] :=
    fun a b c d => rfl
  have pad5 : ∀ a b c d e : Nat, padDigits [a, b, c, d, e] = [a, b, c, d, e] :=
    fun a b c d e => rfl
  unfold decDigits
  rcases Nat.lt_or_ge n 10 with h1 | h1
  · rw [decDigitsAux_of_lt _ _ _ (Nat.succ_pos n) h1, pad1]
    simp only [List.cons.injEq, and_true]
    omega
  rcases Nat.lt_or_ge n 100 with h2 | h2
  · rw [decDigitsAux_of_ge _ _ _ (Nat.succ_pos n) h1, Nat.succ_sub_one,
      decDigitsAux_of_lt _ _ _ (by omega) (by omega), pad2]
    simp only [List.cons.injEq, and_true]
    omega
  rcases Nat.lt_or_ge n 1000 with h3 | h3
  · rw [decDigitsAux_of_ge _ _ _ (Nat.succ_pos n) h1, Nat.succ_sub_one,
      decDigitsAux_of_ge _ _ _ (by omega) (by omega),
      decDigitsAux_of_lt _ _ _ (by omega) (by omega), pad3]
    simp only [List.cons.injEq, and_true]
    omega
  rcases Nat.lt_or_ge n 10000 with h4 | h4
  · rw [decDigitsAux_of_ge _ _ _ (Nat.succ_pos n) h1, Nat.succ_sub_one,
      decDigitsAux_of_ge _ _ _ (by omega) (by omega),
      decDigitsAux_of_ge _ _ _ (by omega) (by omega),
      decDigitsAux_of_lt _ _ _ (by omega) (by omega), pad4]
    simp only [List.cons.injEq, and_true]
    omega
  · rw [decDigitsAux_of_ge _ _ _ (Nat.succ_pos n) h1, Nat.succ_sub_one,
      decDigitsAux_of_ge _ _ _ (by omega) (by omega),
      decDigitsAux_of_ge _ _ _ (by omega) (by omega),
      decDigitsAux_of_ge _ _ _ (by omega) (by omega),
      decDigitsAux_of_lt _ _ _ (by omega) (by omega), pad5]
    simp only [List.cons.injEq, and_true]
    omega

lemma generateOperationVec_ofNat (n : Nat) (h : n < 100000) :
    generateOperationVec (Int.ofNat n) =
      some (((n % 100 : Nat) : Int), n / 100 % 10, n / 1000 % 10, n / 10000 % 10) := by
  have hd := padDigits_decDigits n h
  have hdig : Nat.ofDigits 10 [n % 10, n / 10 % 10] = n % 100 := by
    simp only [Nat.ofDigits_cons, Nat.ofDigits_nil]
    omega
  simp only [generateOperationVec, hd, List.reverse_cons, List.reverse_nil,
    List.nil_append, List.cons_append, hdig]

lemma stateGet_eq_ok (st : List Int) (pos v : Int) :
    stateGet st pos = .ok v ↔ 0 ≤ pos ∧ st[pos.toNat]? = some v := by
  unfold stateGet
  by_cases h : 0 ≤ pos
  · rw [if_pos h]
    cases hx : st[pos.toNat]? <;> simp [hx, h]
  · rw [if_neg h]
    simp [h]

/-- Claim C1: for every decoded command executed in a state where all
referenced addresses are in bounds, one execution cycle has exactly the
effect and program-counter update of the instruction table: `Add`,
`Multiply`, `LessThan` and `Equal` write the sum, the product, the 0/1
comparison results to the destination and advance the program counter by 4;
`JmpIfTrue` jumps to the read target exactly when the condition reads
non-zero and otherwise advances by 3; `JmpIfFalse` jumps exactly when the
condition reads zero and otherwise advances by 3; `IoRead` and `IoWrite`
advance by 2; `End` stops execution, returning the current cell 0. -/
theorem c1_instruction_effects (st : List Int) (pc : Int) (io : IoState) :
    (∀ a b dest va vb st2,
      readMemory st a = .ok va → readMemory st b = .ok vb →
      writeMemory st dest (va + vb) = .ok st2 →
      execStep st pc io (.Add a b dest) 4 = .ok (.next st2 (pc + 4) io)) ∧
    (∀ a b dest va vb st2,
      readMemory st a = .ok va → readMemory st b = .ok vb →
      writeMemory st dest (va * vb) = .ok st2 →
      execStep st pc io (.Multiply a b dest) 4 = .ok (.next st2 (pc + 4) io)) ∧
    (∀ a b dest va vb st2,
      readMemory st a = .ok va → readMemory st b = .ok vb →
      writeMemory st dest (if va < vb then 1 else 0) = .ok st2 →
      execStep st pc io (.LessThan a b dest) 4 = .ok (.next st2 (pc + 4) io)) ∧
    (∀ a b dest va vb st2,
      readMemory st a = .ok va → readMemory st b = .ok vb →
      writeMemory st dest (if va = vb then 1 else 0) = .ok st2 →
      execStep st pc io (.Equal a b dest) 4 = .ok (.next st2 (pc + 4) io)) ∧
    (∀ cond tgt vc vt,
      readMemory st cond = .ok vc → vc ≠ 0 → readMemory st tgt = .ok vt →
      execStep st pc io (.JmpIfTrue cond tgt) 3 = .ok (.next st vt io)) ∧
    (∀ cond tgt,
      readMemory st cond = .ok 0 →
      execStep st pc io (.JmpIfTrue cond tgt) 3 = .ok (.next st (pc + 3) io)) ∧
    (∀ cond tgt vt,
      readMemory st cond = .ok 0 → readMemory st tgt = .ok vt →
      execStep st pc io (.JmpIfFalse cond tgt) 3 = .ok (.next st vt io)) ∧
    (∀ cond tgt vc,
      readMemory st cond = .ok vc → vc ≠ 0 →
      execStep st pc io (.JmpIfFalse cond tgt) 3 = .ok (.next st (pc + 3) io)) ∧
    (∀ pos st2,
      stateSet st pos (io.inputs io.nread) = .ok st2 →
      execStep st pc io (.IoRead pos) 2 =
        .ok (.next st2 (pc + 2) { io with nread := io.nread + 1 })) ∧
    (∀ pos,
      execStep st pc io (.IoWrite pos) 2 =
        .ok (.next st (pc + 2) (writeOutput st io pos))) ∧
    (∀ v, stateGet st 0 = .ok v →
      execStep st pc io .End 1 = .ok (.ret v st io)) := by
  refine ⟨?_, ?_, ?_, ?_, ?_, ?_, ?_, ?_, ?_, ?_, ?_⟩
  · intro a b dest va vb st2 h1 h2 h3
    simp [execStep, h1, h2, h3]
  · intro a b dest va vb st2 h1 h2 h3
    simp [execStep, h1, h2, h3]
  · intro a b dest va vb st2 h1 h2 h3
    simp [execStep, twoArgTest, h1, h2, h3]
  · intro a b dest va vb st2 h1 h2 h3
    simp [execStep, twoArgTest, h1, h2, h3]
  · intro cond tgt vc vt h1 hne h2
    simp [execStep, h1, hne, h2]
  · intro cond tgt h1
    simp [execStep, h1]
  · intro cond tgt vt h1 h2
    simp [execStep, h1, h2]
  · intro cond tgt vc h1 hne
    simp [execStep, h1, hne]
  · intro pos st2 hset
    simp [execStep, readInput, ioRead, hset]
  · intro pos
    simp [execStep]
  · intro v hv
    simp [execStep, hv]

/-- Claim C1 witness: each instruction arm exercised at concrete inputs with
all hypotheses discharged by evaluation. -/
theorem c1_instruction_effects_witness :
    execStep [5, 3, 0, 9] 0 ioZero (.Add (.Register 0) (.Immediate 2) (.Register 2)) 4
        = .ok (.next [5, 3, 7, 9] 4 ioZero) ∧
    execStep [5, 3, 0, 9] 0 ioZero (.Multiply (.Register 0) (.Immediate 2) (.Register 2)) 4
        = .ok (.next [5, 3, 10, 9] 4 ioZero) ∧
    execStep [5, 3, 0, 9] 0 ioZero (.LessThan (.Register 0) (.Immediate 2) (.Register 2)) 4
        = .ok (.next [5, 3, 0, 9] 4 ioZero) ∧
    execStep [5, 3, 0, 9] 0 ioZero (.Equal (.Register 0) (.Immediate 5) (.Register 2)) 4
        = .ok (.next [5, 3, 1, 9] 4 ioZero) ∧
    execStep [5, 3, 0, 9] 0 ioZero (.JmpIfTrue (.Register 0) (.Immediate 77)) 3
        = .ok (.next [5, 3, 0, 9] 77 ioZero) ∧
    execStep [5, 3, 0, 9] 0 ioZero (.JmpIfTrue (.Register 2) (.Immediate 77)) 3
        = .ok (.next [5, 3, 0, 9] 3 ioZero) ∧
    execStep [5, 3, 0, 9] 0 ioZero (.JmpIfFalse (.Register 2) (.Immediate 9)) 3
        = .ok (.next [5, 3, 0, 9] 9 ioZero) ∧
    execStep [5, 3, 0, 9] 0 ioZero (.JmpIfFalse (.Register 0) (.Immediate 9)) 3
        = .ok (.next [5, 3, 0, 9] 3 ioZero) ∧
    execStep [5, 3, 0, 9] 0 ioZero (.IoRead 1) 2
        = .ok (.next [5, 0, 0, 9] 2 ⟨fun _ => 0, 1, []⟩) ∧
    execStep [5, 3, 0, 9] 0 ioZero (.IoWrite 0) 2
        = .ok (.next [5, 3, 0, 9] 2 ⟨fun _ => 0, 0, [5]⟩) ∧
    execStep [5, 3, 0, 9] 0 ioZero .End 1
        = .ok (.ret 5 [5, 3, 0, 9] ioZero) := by
  have h := c1_instruction_effects [5, 3, 0, 9] 0 ioZero
  exact ⟨h.1 _ _ _ 5 2 _ rfl rfl rfl,
    h.2.1 _ _ _ 5 2 _ rfl rfl rfl,
    h.2.2.1 _ _ _ 5 2 _ rfl rfl rfl,
    h.2.2.2.1 _ _ _ 5 5 _ rfl rfl rfl,
    h.2.2.2.2.1 _ _ 5 77 rfl (by norm_num) rfl,
    h.2.2.2.2.2.1 _ _ rfl,
    h.2.2.2.2.2.2.1 _ _ 9 rfl rfl,
    h.2.2.2.2.2.2.2.1 _ _ 5 rfl (by norm_num),
    h.2.2.2.2.2.2.2.2.1 1 _ rfl,
    h.2.2.2.2.2.2.2.2.2.1 0,
    h.2.2.2.2.2.2.2.2.2.2 5 rfl⟩

/-- Claim C2: for every non-negative instruction word of at most five decimal
digits, decoding yields opcode `word mod 100` (the rightmost two decimal
digits), operand 1 mode digit `word / 100 mod 10`, operand 2 mode digit
`word / 1000 mod 10` and operand 3 mode digit `word / 10000 mod 10`, missing
high-order digits defaulting to 0. -/
theorem c2_decode_digits (w : Int) (h0 : 0 ≤ w) (h5 : w < 100000) :
    generateOperationVec w =
      some (w % 100, w.toNat / 100 % 10, w.toNat / 1000 % 10, w.toNat / 10000 % 10) := by
  obtain ⟨n, rfl⟩ : ∃ n : Nat, w = Int.ofNat n := ⟨w.toNat, (Int.toNat_of_nonneg h0).symm⟩
  simp only [Int.ofNat_eq_natCast] at h5 ⊢
  have hn : n < 100000 := by omega
  have hg := generateOperationVec_ofNat n hn
  simp only [Int.ofNat_eq_natCast] at hg
  rw [hg]
  simp only [Option.some.injEq, Prod.mk.injEq]
  refine ⟨by omega, by omega, by omega, by omega⟩

/-- Claim C2 witness: the theorem applied to the word 1002 (opcode 2, operand
2 immediate, the rest positional). -/
theorem c2_decode_digits_witness :
    (0 : Int) ≤ 1002 ∧ (1002 : Int) < 100000 ∧
      generateOperationVec 1002 =
        some ((1002 : Int) % 100, (1002 : Int).toNat / 100 % 10,
          (1002 : Int).toNat / 1000 % 10, (1002 : Int).toNat / 10000 % 10) :=
  ⟨by norm_num, by norm_num, c2_decode_digits 1002 (by norm_num) (by norm_num)⟩

/-- Claim C3 counterexample: the one machine word 55 is an unknown opcode,
yet `execute` returns normally — `_parse_slice` yields `None`, the loop
exits, `_run_machine` returns 0 and `execute` discards it.  Execution stops
silently without any `Faulted` state or error value reaching the caller,
contradicting the claim that every fault is reported. -/
theorem c3_silent_stop_cex :
    execute [55, 0, 0, 0] ioZero 5 = .done () [55, 0, 0, 0] ioZero := rfl

/-- Claim C3 (amended): a malformed or unknown instruction word makes
`_parse_slice` return `None`, upon which `_run_machine` exits its loop and
returns 0 with no error reported to the caller of `execute` — a silent stop;
an out-of-bounds read or write and a program counter leaving the valid range
are Rust panics (process aborts), not returned error values; an out-of-bounds
`IoWrite` read merely logs to stderr and continues. -/
theorem c3_fault_behaviour :
    (∀ (st : List Int) (io : IoState) (fuel : Nat),
      4 ≤ st.length → parseSlice (st.take 4) = .ok none →
      runMachine st io fuel = .stopped st io) ∧
    (∀ (io : IoState) (fuel : Nat),
      runMachine [1, 0, 0, 0] io (fuel + 1) = .panicked .IndexOutOfBounds) ∧
    (∀ (st : List Int) (pos : Int),
      pos < 0 ∨ (st.length : Int) ≤ pos →
      stateGet st pos = .error .IndexOutOfBounds ∧
      ∀ v, stateSet st pos v = .error .IndexOutOfBounds) ∧
    (∀ (st : List Int) (io : IoState) (pos : Int),
      pos < 0 ∨ (st.length : Int) ≤ pos →
      writeOutput st io pos = io) := by
  refine ⟨?_, ?_, ?_, ?_⟩
  · intro st io fuel hlen hparse
    simp [runMachine, fetchFirst, if_pos hlen, hparse, runLoop]
  · intro io fuel
    rfl
  · intro st pos hpos
    constructor
    · unfold stateGet
      rcases hpos with h | h
      · rw [if_neg (by omega)]
      · rw [if_pos (by omega), List.getElem?_eq_none (by omega)]
    · intro v
      unfold stateSet
      rw [if_neg (by omega)]
  · intro st io pos hpos
    unfold writeOutput
    rcases hpos with h | h
    · rw [if_neg (by omega)]
    · rw [if_pos (by omega), List.getElem?_eq_none (by omega)]

/-- Claim C3 witness: the silent stop on opcode 55, the panic when the
program counter runs off the end of `[1,0,0,0]`, and panics on out-of-bounds
accesses, all at concrete inputs. -/
theorem c3_fault_behaviour_witness :
    runMachine [55, 0, 0, 0] ioZero 7 = .stopped [55, 0, 0, 0] ioZero ∧
    runMachine [1, 0, 0, 0] ioZero 8 = .panicked .IndexOutOfBounds ∧
    (stateGet [3, 1] 5 = .error .IndexOutOfBounds ∧
      ∀ v, stateSet [3, 1] 5 v = .error .IndexOutOfBounds) ∧
    writeOutput [3, 1] ioZero (-2) = ioZero := by
  have h := c3_fault_behaviour
  exact ⟨h.1 [55, 0, 0, 0] ioZero 7 (by norm_num) rfl,
    h.2.1 ioZero 7,
    h.2.2.1 [3, 1] 5 (by norm_num),
    h.2.2.2 [3, 1] ioZero (-2) (by norm_num)⟩

/-- Claim C4 counterexample: decoding the word 201 (operand 1 mode digit 2)
does not return any `InvalidAddressingMode` fault value to the caller of
`execute` — `_create_addressing_mode` panics, a process abort. -/
theorem c4_invalid_mode_cex :
    execute [201, 0, 0, 0] ioZero 5 = .panicked (.UnrecognisedMode 2) := rfl

/-- Claim C4 (amended): for every opcode that applies addressing modes, a
mode digit outside 0 and 1 is never accepted with a default interpretation:
`_create_addressing_mode` panics `unrecognised memory mode` (a process
abort), and the abort propagates out of `execute`. -/
theorem c4_invalid_mode_rejected :
    (∀ (mode : Nat) (v : Int), mode ≠ 0 → mode ≠ 1 →
      createAddressingMode mode v = .error (.UnrecognisedMode mode)) ∧
    (∀ (io : IoState) (fuel : Nat),
      execute [201, 0, 0, 0] io fuel = .panicked (.UnrecognisedMode 2)) := by
  constructor
  · intro mode v h0 h1
    match mode with
    | 0 => exact absurd rfl h0
    | 1 => exact absurd rfl h1
    | n + 2 => rfl
  · intro io fuel
    rfl

/-- Claim C4 witness: mode digit 2 rejected at a concrete value, and the
abort surfacing from `execute` on the concrete program `[201,0,0,0]`. -/
theorem c4_invalid_mode_rejected_witness :
    createAddressingMode 2 7 = .error (.UnrecognisedMode 2) ∧
    execute [201, 0, 0, 0] ioZero 3 = .panicked (.UnrecognisedMode 2) :=
  ⟨c4_invalid_mode_rejected.1 2 7 (by norm_num) (by norm_num),
    c4_invalid_mode_rejected.2 ioZero 3⟩

/-- Claim C5 counterexample: the program `[10001,0,0,0]` decodes to an `Add`
whose destination is immediate; executing it is a process abort
(`_write_memory` panics), not a `WriteToImmediate` fault value returned to
the caller of `execute`. -/
theorem c5_write_immediate_cex :
    execute [10001, 0, 0, 0] ioZero 5 = .panicked .WriteToImmediate := rfl

/-- Claim C5 (amended): every attempted write through an immediate operand
panics (`_write_memory` aborts before touching memory — no new memory state
is produced, so no cell is modified), and the abort propagates out of
`execute`; it is never a silent write and never an ignored no-op. -/
theorem c5_write_immediate_panic :
    (∀ (st : List Int) (v value : Int),
      writeMemory st (.Immediate v) value = .error .WriteToImmediate) ∧
    (∀ (io : IoState) (fuel : Nat),
      execute [10001, 0, 0, 0] io (fuel + 1) = .panicked .WriteToImmediate) := by
  exact ⟨fun st v value => rfl, fun io fuel => rfl⟩

/-- Claim C6: for opcodes 3 (`IoRead`) and 4 (`IoWrite`) the single operand
is always taken as a raw memory address, whatever the decoded mode digits
are: the parser builds `IoRead slice[1]` and `IoWrite slice[1]` ignoring the
modes, the executor stores the next input at that address and outputs the
cell at that address; no immediate interpretation is ever applied. -/
theorem c6_io_positional :
    (∀ (w s1 : Int) (rest : List Int) (opcode : Int) (m1 m2 m3 : Nat),
      generateOperationVec w = some (opcode, m1, m2, m3) → opcode = 3 →
      parseSlice (w :: s1 :: rest) = .ok (some (.IoRead s1, 2))) ∧
    (∀ (w s1 : Int) (rest : List Int) (opcode : Int) (m1 m2 m3 : Nat),
      generateOperationVec w = some (opcode, m1, m2, m3) → opcode = 4 →
      parseSlice (w :: s1 :: rest) = .ok (some (.IoWrite s1, 2))) ∧
    (∀ (st st2 : List Int) (pc : Int) (io : IoState) (pos : Int),
      stateSet st pos (io.inputs io.nread) = .ok st2 →
      execStep st pc io (.IoRead pos) 2 =
        .ok (.next st2 (pc + 2) { io with nread := io.nread + 1 })) ∧
    (∀ (st : List Int) (pc : Int) (io : IoState) (pos v : Int),
      stateGet st pos = .ok v →
      execStep st pc io (.IoWrite pos) 2 =
        .ok (.next st (pc + 2) (ioWrite io v))) := by
  refine ⟨?_, ?_, ?_, ?_⟩
  · intro w s1 rest opcode m1 m2 m3 hw hop
    subst hop
    simp [parseSlice, sliceGet, hw]
  · intro w s1 rest opcode m1 m2 m3 hw hop
    subst hop
    simp [parseSlice, sliceGet, hw]
  · intro st st2 pc io pos hset
    simp [execStep, readInput, ioRead, hset]
  · intro st pc io pos v hv
    rw [stateGet_eq_ok] at hv
    simp [execStep, writeOutput, if_pos hv.1, hv.2]

/-- Claim C6 witness: the words 103 and 104 (mode digit 1 on the operand) are
still parsed positionally, and the executor arms applied at concrete
in-bounds inputs. -/
theorem c6_io_positional_witness :
    parseSlice [103, 7] = .ok (some (.IoRead 7, 2)) ∧
    parseSlice [104, 7] = .ok (some (.IoWrite 7, 2)) ∧
    execStep [8, 9] 0 ioZero (.IoRead 1) 2 = .ok (.next [8, 0] 2 ⟨fun _ => 0, 1, []⟩) ∧
    execStep [8, 9] 0 ioZero (.IoWrite 1) 2 = .ok (.next [8, 9] 2 ⟨fun _ => 0, 0, [9]⟩) :=
  ⟨c6_io_positional.1 103 7 [] 3 1 0 0 rfl rfl,
    c6_io_positional.2.1 104 7 [] 4 1 0 0 rfl rfl,
    c6_io_positional.2.2.1 [8, 9] [8, 0] 0 ioZero 1 rfl,
    c6_io_positional.2.2.2 [8, 9] 0 ioZero 1 9 rfl⟩

/-- Claim C7 counterexample: the one-cell program `[99]` does not halt
successfully — the very first fetch `&state[0..4]` at line 139 is not
clamped, so a memory image with fewer than four cells panics before any
instruction is decoded. -/
theorem c7_first_fetch_cex :
    execute [99] ioZero 5 = .panicked .IndexOutOfBounds := rfl

/-- Claim C7 (amended): only the fetches after the first cycle are clamped to
the end of memory (and there fewer than four cells are fine when the opcode
needs fewer, e.g. a trailing 99); the very first fetch at `pc = 0` demands
four cells unconditionally, so any memory image shorter than four cells —
including `[99]` — panics instead of halting, while `99` at position 0 of a
four-cell-or-longer image halts at once. -/
theorem c7_fetch_clamping :
    (∀ (st : List Int) (io : IoState) (fuel : Nat),
      st.length < 4 → runMachine st io fuel = .panicked .IndexOutOfBounds) ∧
    (∀ (st : List Int) (pc : Int),
      0 ≤ pc → pc ≤ (st.length : Int) →
      fetchWindow st pc = .ok ((st.drop pc.toNat).take 4)) ∧
    (∀ (a b c : Int) (rest : List Int) (io : IoState) (fuel : Nat),
      runMachine (99 :: a :: b :: c :: rest) io (fuel + 1) =
        .halted 99 (99 :: a :: b :: c :: rest) io) ∧
    (∀ (io : IoState) (fuel : Nat),
      runMachine [1, 0, 0, 0, 99] io (fuel + 2) = .halted 2 [2, 0, 0, 0, 99] io) := by
  have h99 : generateOperationVec 99 = some (99, 0, 0, 0) := rfl
  have h1v : generateOperationVec 1 = some (1, 0, 0, 0) := rfl
  refine ⟨?_, ?_, ?_, ?_⟩
  · intro st io fuel hlen
    unfold runMachine fetchFirst
    rw [if_neg (by omega)]
  · intro st pc h0 hle
    unfold fetchWindow
    rw [if_pos ⟨h0, hle⟩]
  · intro a b c rest io fuel
    unfold runMachine fetchFirst
    rw [if_pos (by simp)]
    simp [parseSlice, sliceGet, h99, runLoop, execStep, stateGet]
  · intro io fuel
    unfold runMachine fetchFirst
    rw [if_pos (by norm_num)]
    simp [parseSlice, sliceGet, h1v, h99, createAddressingMode, runLoop, execStep,
      readMemory, writeMemory, stateGet, stateSet, fetchWindow]

/-- Claim C7 witness: the theorem applied to `[99]` (panics: fewer than four
cells), a concrete in-range clamped fetch, `99` leading a four-cell image
(halts), and `[1,0,0,0,99]` whose final cycle fetches a one-cell window. -/
theorem c7_fetch_clamping_witness :
    runMachine [99] ioZero 2 = .panicked .IndexOutOfBounds ∧
    fetchWindow [7, 8, 9] 2 = .ok [9] ∧
    runMachine [99, 1, 2, 3] ioZero 1 = .halted 99 [99, 1, 2, 3] ioZero ∧
    runMachine [1, 0, 0, 0, 99] ioZero 2 = .halted 2 [2, 0, 0, 0, 99] ioZero := by
  have h := c7_fetch_clamping
  exact ⟨h.1 [99] ioZero 2 (by norm_num),
    h.2.1 [7, 8, 9] 2 (by norm_num) (by norm_num),
    h.2.2.1 1 2 3 [] ioZero 0,
    h.2.2.2 ioZero 0⟩

/-- Claim C8: the classic program `[1,9,10,3,2,3,11,0,99,30,40,50]` halts by
reaching opcode 99 with cell 0 equal to 3500. -/
theorem c8_day2_example :
    runMachine [1, 9, 10, 3, 2, 3, 11, 0, 99, 30, 40, 50] ioZero 10 =
      .halted 3500 [3500, 9, 10, 70, 2, 3, 11, 0, 99, 30, 40, 50] ioZero := rfl

/-- Claim C9 counterexample: on the program `[4,0,99,0]` (output cell 0, then
halt) the caller of `execute` receives `()` as the return value — neither the
final value 4, nor the final memory, nor the outputs are part of it; the
outputs reach the caller only through the io port side channel, where `[4]`
has accumulated. -/
theorem c9_return_value_cex :
    execute [4, 0, 99, 0] ioZero 5 = .done () [4, 0, 99, 0] ⟨fun _ => 0, 0, [4]⟩ := rfl

/-- Claim C9 (amended): when execution reaches `End`, `_run_machine` returns
the value of cell 0 at that moment, but `execute` discards it and returns
unit: the caller receives no final value, final memory or output list in the
return value; the final memory stays in the machine's private state and the
outputs are visible only through the io port the caller injected. -/
theorem c9_halt_reporting :
    (∀ (st : List Int) (pc : Int) (io : IoState) (v : Int) (clen : Nat),
      stateGet st 0 = .ok v →
      execStep st pc io .End clen = .ok (.ret v st io)) ∧
    (∀ (st st2 : List Int) (io io2 : IoState) (fuel : Nat) (v : Int),
      runMachine st io fuel = .halted v st2 io2 →
      execute st io fuel = .done () st2 io2) := by
  constructor
  · intro st pc io v clen hv
    simp [execStep, hv]
  · intro st st2 io io2 fuel v h
    unfold execute
    rw [h]

/-- Claim C9 witness: the `End` arm returning cell 0 on a concrete state, and
`execute` of a halting program returning unit with the machine state passed
through side channels. -/
theorem c9_halt_reporting_witness :
    execStep [7] 0 ioZero .End 1 = .ok (.ret 7 [7] ioZero) ∧
    execute [99, 0, 0, 0] ioZero 1 = .done () [99, 0, 0, 0] ioZero :=
  ⟨c9_halt_reporting.1 [7] 0 ioZero 7 1 rfl,
    c9_halt_reporting.2 [99, 0, 0, 0] [99, 0, 0, 0] ioZero ioZero 1 99 rfl⟩

/-- Claim C10: execution is deterministic in the initial memory and the input
stream: two runs of `_run_machine` (and of `execute`) from equal initial
memories with equal io ports — in particular, equal sequences of values
returned by the port's read operation — produce equal results: the same
terminal state, the same final memory and the same outputs in the same
order. -/
theorem c10_deterministic (st1 st2 : List Int) (io1 io2 : IoState)
    (f1 f2 : Nat) (hst : st1 = st2) (hio : io1 = io2) (hf : f1 = f2) :
    runMachine st1 io1 f1 = runMachine st2 io2 f2 ∧
    execute st1 io1 f1 = execute st2 io2 f2 := by
  subst hst; subst hio; subst hf
  exact ⟨rfl, rfl⟩

/-- Claim C10 witness: the theorem applied to a concrete program that reads
one input and writes one output. -/
theorem c10_deterministic_witness :
    runMachine [3, 0, 4, 0, 99] ⟨fun _ => 42, 0, []⟩ 5 =
      runMachine [3, 0, 4, 0, 99] ⟨fun _ => 42, 0, []⟩ 5 ∧
    execute [3, 0, 4, 0, 99] ⟨fun _ => 42, 0, []⟩ 5 =
      execute [3, 0, 4, 0, 99] ⟨fun _ => 42, 0, []⟩ 5 :=
  c10_deterministic [3, 0, 4, 0, 99] [3, 0, 4, 0, 99] ⟨fun _ => 42, 0, []⟩
    ⟨fun _ => 42, 0, []⟩ 5 5 rfl rfl rfl

end IntCode

